import Mathlib

/-!
Shallow embedding of the universe-selection logic of the qval repository
(`qval/Part2-Universe-Selection.ipynb`).

The notebook downloads a securities master CSV and builds four universes:

* `nyse-stk` (`all`): `create_universe("nyse-stk", "sharadar_nyse_securities.csv")`
  on the unfiltered file;
* `nyse-financials`: rows with `sharadar_Sector == "Financial Services"`;
* `nyse-reits`: rows with `sharadar_Industry.fillna("").str.contains("REIT")`;
* `nyse-adrs`: rows with `sharadar_Category.fillna("").str.startswith("ADR")`.

A security row is modelled with the columns the notebook's filters touch,
each nullable (pandas `NaN` becomes `none`).  The pandas string operations
are transliterated over `List Char`.  The platform call `create_universe`
is external to the repository; its membership semantics is modelled from
the spec where a claim needs it.
-/

/-- One row of the securities master file, restricted to the columns the
notebook's code reads.  `sid` is the platform identifier column; the three
descriptive columns are nullable categorical strings (`none` = pandas `NaN`). -/
structure Security where
  sid : Option String
  sector : Option String
  industry : Option String
  category : Option String
deriving Repr, DecidableEq

/-- Pandas `Series.fillna(d)` applied to one nullable cell. -/
def fillna (d : String) : Option String → String
  | some v => v
  | none => d

/-- `charsHasPre pat s` holds when `pat` occurs at the start of `s`
(Python `str.startswith` over the underlying character list). -/
def charsHasPre : List Char → List Char → Bool
  | [], _ => true
  | _ :: _, [] => false
  | p :: ps, c :: cs => p == c && charsHasPre ps cs

/-- `charsHasSub pat s` holds when `pat` occurs contiguously anywhere in `s`
(Python `in` / pandas `str.contains` with a plain, regex-free pattern). -/
def charsHasSub (pat : List Char) : List Char → Bool
  | [] => charsHasPre pat []
  | c :: cs => charsHasPre pat (c :: cs) || charsHasSub pat cs

/-- Pandas `Series.str.startswith(pat)` on one cell value. -/
def strStartsW (s pat : String) : Bool := charsHasPre pat.data s.data

/-- Pandas `Series.str.contains(pat)` (case-sensitive, literal pattern)
on one cell value. -/
def strContainsSub (s pat : String) : Bool := charsHasSub pat.data s.data

/-- The financials predicate on one sector cell:
`sharadar_Sector == "Financial Services"`.
Pandas `==` against a scalar is elementwise strict equality and is `False`
on `NaN` (there is no `fillna` in this filter). -/
def financialsCell (c : Option String) : Bool :=
  match c with
  | some v => v = "Financial Services"
  | none => false

/-- The REITs predicate on one industry cell:
`sharadar_Industry.fillna("").str.contains("REIT")`. -/
def reitsCell (c : Option String) : Bool :=
  strContainsSub (fillna "" c) "REIT"

/-- The ADRs predicate on one category cell:
`sharadar_Category.fillna("").str.startswith("ADR")`. -/
def adrsCell (c : Option String) : Bool :=
  strStartsW (fillna "" c) "ADR"

/-- The financials mask of one row:
`nyse_securities.sharadar_Sector == "Financial Services"`. -/
def financialsMask (s : Security) : Bool := financialsCell s.sector

/-- The REITs mask of one row:
`nyse_securities.sharadar_Industry.fillna("").str.contains("REIT")`. -/
def reitsMask (s : Security) : Bool := reitsCell s.industry

/-- The ADRs mask of one row:
`nyse_securities.sharadar_Category.fillna("").str.startswith("ADR")`. -/
def adrsMask (s : Security) : Bool := adrsCell s.category

/-- `nyse_securities[nyse_securities.sharadar_Sector == "Financial Services"]`:
boolean-mask row selection keeps the rows whose mask is true, in order. -/
def financialsRows (t : List Security) : List Security := t.filter financialsMask

/-- `nyse_securities[nyse_securities.sharadar_Industry.fillna("").str.contains("REIT")]`. -/
def reitsRows (t : List Security) : List Security := t.filter reitsMask

/-- `nyse_securities[nyse_securities.sharadar_Category.fillna("").str.startswith("ADR")]`. -/
def adrsRows (t : List Security) : List Security := t.filter adrsMask

/-- Modelled from the spec: the platform call `create_universe` (external to
this repository, only called here) turns a table snapshot into "a named,
persisted set of security identifiers"; "Membership is a set (duplicates
collapse)" and the `all` predicate is "true for every record with a non-null
identifier", so rows with a null identifier contribute nothing. -/
def universeOf (t : List Security) : Finset String :=
  (t.filterMap Security.sid).toFinset

/-- `create_universe("nyse-stk", ...)` on the unfiltered master file. -/
def allUniverse (t : List Security) : Finset String := universeOf t

/-- `create_universe("nyse-financials", ...)` on the financials-filtered file. -/
def financialsUniverse (t : List Security) : Finset String :=
  universeOf (financialsRows t)

/-- `create_universe("nyse-reits", ...)` on the REITs-filtered file. -/
def reitsUniverse (t : List Security) : Finset String :=
  universeOf (reitsRows t)

/-- `create_universe("nyse-adrs", ...)` on the ADRs-filtered file. -/
def adrsUniverse (t : List Security) : Finset String :=
  universeOf (adrsRows t)

/- ### Characterisations of the string predicates -/

theorem charsHasPre_iff (pat s : List Char) :
    charsHasPre pat s = true ↔ ∃ rest, s = pat ++ rest := by
  induction pat generalizing s with
  | nil => simp [charsHasPre]
  | cons p ps ih =>
    cases s with
    | nil => simp [charsHasPre]
    | cons c cs =>
      simp only [charsHasPre, Bool.and_eq_true, beq_iff_eq, ih, List.cons_append,
        List.cons.injEq]
      constructor
      · rintro ⟨rfl, rest, rfl⟩
        exact ⟨rest, rfl, rfl⟩
      · rintro ⟨rest, rfl, rfl⟩
        exact ⟨rfl, rest, rfl⟩

theorem charsHasSub_iff (pat s : List Char) :
    charsHasSub pat s = true ↔ ∃ l r, s = l ++ pat ++ r := by
  induction s with
  | nil =>
    simp only [charsHasSub, charsHasPre_iff]
    constructor
    · rintro ⟨rest, h⟩
      rcases List.append_eq_nil.mp h.symm with ⟨rfl, rfl⟩
      exact ⟨[], [], rfl⟩
    · rintro ⟨l, r, h⟩
      rcases List.append_eq_nil.mp h.symm with ⟨h1, rfl⟩
      rcases List.append_eq_nil.mp h1 with ⟨rfl, rfl⟩
      exact ⟨[], rfl⟩
  | cons c cs ih =>
    simp only [charsHasSub, Bool.or_eq_true, charsHasPre_iff, ih]
    constructor
    · rintro (⟨rest, h⟩ | ⟨l, r, rfl⟩)
      · exact ⟨[], rest, by simpa using h⟩
      · exact ⟨c :: l, r, rfl⟩
    · rintro ⟨l, r, h⟩
      cases l with
      | nil => exact Or.inl ⟨r, by simpa using h⟩
      | cons x xs =>
        rcases List.cons.injEq .. ▸ h with ⟨rfl, h2⟩
        · exact Or.inr ⟨xs, r, by simpa using h⟩

theorem strStartsW_iff (s pat : String) :
    strStartsW s pat = true ↔ ∃ rest : String, s = pat ++ rest := by
  unfold strStartsW
  rw [charsHasPre_iff]
  constructor
  · rintro ⟨rest, h⟩
    refine ⟨⟨rest⟩, String.ext ?_⟩
    simpa [String.data_append] using h
  · rintro ⟨rest, rfl⟩
    exact ⟨rest.data, by simp [String.data_append]⟩

theorem strContainsSub_iff (s pat : String) :
    strContainsSub s pat = true ↔ ∃ l r : String, s = l ++ pat ++ r := by
  unfold strContainsSub
  rw [charsHasSub_iff]
  constructor
  · rintro ⟨l, r, h⟩
    refine ⟨⟨l⟩, ⟨r⟩, String.ext ?_⟩
    simpa [String.data_append] using h
  · rintro ⟨l, r, rfl⟩
    exact ⟨l.data, r.data, by simp [String.data_append]⟩

/- ### Claims C1-C4: the three membership predicates -/

/-- C1: a row with a null sector is never selected by the financials filter,
a row with a null industry is never selected by the REITs filter, and a row
with a null category is never selected by the ADRs filter: a null descriptive
value never satisfies any membership predicate (the REIT and ADR filters
normalise null to the empty string first; the financials filter's strict
equality is false on null). -/
theorem nullFieldsNeverMatch (t : List Security) (r : Security) :
    (r.sector = none → r ∉ financialsRows t) ∧
    (r.industry = none → r ∉ reitsRows t) ∧
    (r.category = none → r ∉ adrsRows t) := by
  refine ⟨fun h hmem => ?_, fun h hmem => ?_, fun h hmem => ?_⟩
  · have hm := (List.mem_filter.mp hmem).2
    simp [financialsMask, financialsCell, h] at hm
  · have hm := (List.mem_filter.mp hmem).2
    simp only [reitsMask, h] at hm
    exact absurd hm (by decide)
  · have hm := (List.mem_filter.mp hmem).2
    simp only [adrsMask, h] at hm
    exact absurd hm (by decide)

/-- Witness for C1 at a concrete all-null row. -/
theorem nullFieldsNeverMatch_witness :
    (⟨some "C", none, none, none⟩ : Security) ∉
      financialsRows [⟨some "C", none, none, none⟩] ∧
    (⟨some "C", none, none, none⟩ : Security) ∉
      reitsRows [⟨some "C", none, none, none⟩] ∧
    (⟨some "C", none, none, none⟩ : Security) ∉
      adrsRows [⟨some "C", none, none, none⟩] :=
  ⟨(nullFieldsNeverMatch _ _).1 rfl, (nullFieldsNeverMatch _ _).2.1 rfl,
   (nullFieldsNeverMatch _ _).2.2 rfl⟩

/-- C2: the financials filter selects exactly the rows whose sector cell is
the exact literal `"Financial Services"` (strict equality, not a substring
or case-insensitive match), and on the example table with ids A, B, C and
sectors "Financial Services", "Energy", null the financials universe is {A}. -/
theorem financialsExactEquality :
    (∀ (t : List Security) (r : Security),
      r ∈ financialsRows t ↔ r ∈ t ∧ r.sector = some "Financial Services") ∧
    financialsUniverse
      [⟨some "A", some "Financial Services", none, none⟩,
       ⟨some "B", some "Energy", none, none⟩,
       ⟨some "C", none, none, none⟩] = {"A"} := by
  constructor
  · intro t r
    rw [financialsRows, List.mem_filter]
    refine and_congr_right fun _ => ?_
    cases h : r.sector with
    | none => simp [financialsMask, financialsCell, h]
    | some v => simp [financialsMask, financialsCell, h]
  · decide

/-- Witness for C2: the A row is selected on the example table. -/
theorem financialsExactEquality_witness :
    (⟨some "A", some "Financial Services", none, none⟩ : Security) ∈
      financialsRows [⟨some "A", some "Financial Services", none, none⟩,
        ⟨some "B", some "Energy", none, none⟩,
        ⟨some "C", none, none, none⟩] :=
  (financialsExactEquality.1 _ _).mpr ⟨by decide, rfl⟩

/-- C3: the REITs filter selects exactly the rows whose industry cell, with
null replaced by the empty string, contains the case-sensitive substring
"REIT" anywhere, and on the example table with ids X, Y, Z, W and industries
"REIT - Office", "REIT", "Retail", null the REITs universe is {X, Y}. -/
theorem reitsSubstringMatch :
    (∀ (t : List Security) (r : Security),
      r ∈ reitsRows t ↔
        r ∈ t ∧ ∃ l rr : String, fillna "" r.industry = l ++ "REIT" ++ rr) ∧
    reitsUniverse
      [⟨some "X", none, some "REIT - Office", none⟩,
       ⟨some "Y", none, some "REIT", none⟩,
       ⟨some "Z", none, some "Retail", none⟩,
       ⟨some "W", none, none, none⟩] = {"X", "Y"} := by
  constructor
  · intro t r
    rw [reitsRows, List.mem_filter]
    exact and_congr_right fun _ => strContainsSub_iff (fillna "" r.industry) "REIT"
  · decide

/-- Witness for C3: the X row is selected on the example table. -/
theorem reitsSubstringMatch_witness :
    (⟨some "X", none, some "REIT - Office", none⟩ : Security) ∈
      reitsRows [⟨some "X", none, some "REIT - Office", none⟩,
        ⟨some "Y", none, some "REIT", none⟩,
        ⟨some "Z", none, some "Retail", none⟩,
        ⟨some "W", none, none, none⟩] :=
  (reitsSubstringMatch.1 _ _).mpr ⟨by decide, "", " - Office", by decide⟩

/-- C4: the ADRs filter selects exactly the rows whose category cell, with
null replaced by the empty string, starts with the prefix "ADR", and on the
example table with ids P, Q, R and categories "ADR Preferred", "Domestic",
"ADR" the ADRs universe is {P, R}. -/
theorem adrsStartsWithMatch :
    (∀ (t : List Security) (r : Security),
      r ∈ adrsRows t ↔
        r ∈ t ∧ ∃ rest : String, fillna "" r.category = "ADR" ++ rest) ∧
    adrsUniverse
      [⟨some "P", none, none, some "ADR Preferred"⟩,
       ⟨some "Q", none, none, some "Domestic"⟩,
       ⟨some "R", none, none, some "ADR"⟩] = {"P", "R"} := by
  constructor
  · intro t r
    rw [adrsRows, List.mem_filter]
    exact and_congr_right fun _ => strStartsW_iff (fillna "" r.category) "ADR"
  · decide

/-- Witness for C4: the P row is selected on the example table. -/
theorem adrsStartsWithMatch_witness :
    (⟨some "P", none, none, some "ADR Preferred"⟩ : Security) ∈
      adrsRows [⟨some "P", none, none, some "ADR Preferred"⟩,
        ⟨some "Q", none, none, some "Domestic"⟩,
        ⟨some "R", none, none, some "ADR"⟩] :=
  (adrsStartsWithMatch.1 _ _).mpr ⟨by decide, " Preferred", by decide⟩

/- ### Claims C5-C7, C10: set-level invariants of the classifier -/

theorem universeOf_filter_subset (p : Security → Bool) (t : List Security) :
    universeOf (t.filter p) ⊆ universeOf t := by
  intro x hx
  simp only [universeOf, List.mem_toFinset, List.mem_filterMap] at hx ⊢
  rcases hx with ⟨a, ha, hsid⟩
  exact ⟨a, (List.mem_filter.mp ha).1, hsid⟩

/-- C5: each exclusion universe is built by filtering the same table that
builds the base universe, so every identifier it selects also appears in
the `all` universe. -/
theorem exclusionUniversesSubsetAll (t : List Security) :
    financialsUniverse t ⊆ allUniverse t ∧
    reitsUniverse t ⊆ allUniverse t ∧
    adrsUniverse t ⊆ allUniverse t :=
  ⟨universeOf_filter_subset financialsMask t,
   universeOf_filter_subset reitsMask t,
   universeOf_filter_subset adrsMask t⟩

/-- Witness for C5 at a one-row financials table. -/
theorem exclusionUniversesSubsetAll_witness :
    financialsUniverse [⟨some "A", some "Financial Services", none, none⟩] ⊆
      allUniverse [⟨some "A", some "Financial Services", none, none⟩] :=
  (exclusionUniversesSubsetAll [⟨some "A", some "Financial Services", none, none⟩]).1

theorem length_filterMap_sid (t : List Security) :
    (t.filterMap Security.sid).length =
      (t.filter (fun r => r.sid.isSome)).length := by
  induction t with
  | nil => rfl
  | cons a t ih =>
    cases h : a.sid with
    | none => simp [List.filterMap_cons, List.filter_cons, h, ih]
    | some v => simp [List.filterMap_cons, List.filter_cons, h, ih]

/-- C6: when the identifier column is a unique key (the spec's data-model
invariant), the `all` universe has exactly as many members as the table has
rows with a non-null identifier. -/
theorem allUniverseCardCountsNonNullIds (t : List Security)
    (h : (t.filterMap Security.sid).Nodup) :
    (allUniverse t).card = (t.filter (fun r => r.sid.isSome)).length := by
  rw [allUniverse, universeOf, List.toFinset_card_of_nodup h,
    length_filterMap_sid]

/-- Witness for C6 at a two-row table with one null identifier. -/
theorem allUniverseCardCountsNonNullIds_witness :
    (allUniverse [⟨some "A", none, none, none⟩,
      ⟨none, some "Energy", none, none⟩]).card =
      (([⟨some "A", none, none, none⟩,
        ⟨none, some "Energy", none, none⟩] : List Security).filter
          (fun r => r.sid.isSome)).length :=
  allUniverseCardCountsNonNullIds
    [⟨some "A", none, none, none⟩, ⟨none, some "Energy", none, none⟩] (by decide)

/-- C7: classification is a pure function of the input table, hence
deterministic and idempotent: two runs on the same unchanged table produce
identical membership sets for all four universes. -/
theorem classifierDeterministic (t₁ t₂ : List Security) (h : t₁ = t₂) :
    allUniverse t₁ = allUniverse t₂ ∧
    financialsUniverse t₁ = financialsUniverse t₂ ∧
    reitsUniverse t₁ = reitsUniverse t₂ ∧
    adrsUniverse t₁ = adrsUniverse t₂ := by
  subst h
  exact ⟨rfl, rfl, rfl, rfl⟩

/-- Witness for C7 at a concrete table. -/
theorem classifierDeterministic_witness :
    allUniverse [⟨some "A", some "Energy", none, none⟩] =
      allUniverse [⟨some "A", some "Energy", none, none⟩] :=
  (classifierDeterministic [⟨some "A", some "Energy", none, none⟩]
    [⟨some "A", some "Energy", none, none⟩] rfl).1

/-- C10: each filter output is a sublist of the input table (rows keep their
relative input order and each input occurrence yields at most one output
occurrence), and each of the three masks is evaluated independently against
the full original table, so a row satisfying several predicates appears in
each corresponding output. -/
theorem filtersPreserveOrderAndIndependence (t : List Security) :
    (financialsRows t).Sublist t ∧
    (reitsRows t).Sublist t ∧
    (adrsRows t).Sublist t ∧
    (∀ r ∈ t, (financialsMask r = true → r ∈ financialsRows t) ∧
      (reitsMask r = true → r ∈ reitsRows t) ∧
      (adrsMask r = true → r ∈ adrsRows t)) :=
  ⟨List.filter_sublist t, List.filter_sublist t, List.filter_sublist t,
   fun _r hr =>
    ⟨fun hm => List.mem_filter.mpr ⟨hr, hm⟩,
     fun hm => List.mem_filter.mpr ⟨hr, hm⟩,
     fun hm => List.mem_filter.mpr ⟨hr, hm⟩⟩⟩

/-- Witness for C10: a row that is both a financial and a REIT appears in
both of those outputs. -/
theorem filtersPreserveOrderAndIndependence_witness :
    (⟨some "D", some "Financial Services", some "REIT - Office", none⟩
        : Security) ∈
      financialsRows
        [⟨some "D", some "Financial Services", some "REIT - Office", none⟩] ∧
    (⟨some "D", some "Financial Services", some "REIT - Office", none⟩
        : Security) ∈
      reitsRows
        [⟨some "D", some "Financial Services", some "REIT - Office", none⟩] := by
  have h := (filtersPreserveOrderAndIndependence
      [⟨some "D", some "Financial Services", some "REIT - Office", none⟩]).2.2.2
      ⟨some "D", some "Financial Services", some "REIT - Office", none⟩
      (by decide)
  exact ⟨h.1 (by decide), h.2.1 (by decide)⟩

/- ### Claim C8: the raw master file and the fail-fast pipeline -/

/-- A raw delimited master file: a header of column names and, per record,
the cells in header order (a cell is `none` when the value is missing). -/
structure MasterFile where
  header : List String
  records : List (List (Option String))
deriving Repr, DecidableEq

/-- Position of a named column in a header (first match, left to right). -/
def colIdx (name : String) : List String → Option Nat
  | [] => none
  | h :: rest => if h = name then some 0 else (colIdx name rest).map (· + 1)

inductive RunError where
  | missingIdentifierColumn : RunError
  | missingColumn : String → RunError
deriving Repr, DecidableEq

/-- The cells of a named column; accessing an absent column is an error
(pandas attribute access such as `nyse_securities.sharadar_Sector` raises
when the column does not exist). -/
def getColumn (m : MasterFile) (name : String) :
    Except RunError (List (Option String)) :=
  match colIdx name m.header with
  | some i => Except.ok (m.records.map (fun r => r.getD i none))
  | none => Except.error (RunError.missingColumn name)

/-- Modelled from the spec: `create_universe` is a platform call outside this
repository; per the spec it "fail[s] fast with a configuration-kind error"
when "the required identifier column is entirely absent from the input
table".  The notebook invokes it on the unfiltered file (`nyse-stk`) before
any filter cell runs. -/
def requireIdentifierColumn (m : MasterFile) :
    Except RunError (List (Option String)) :=
  match colIdx "Sid" m.header with
  | some i => Except.ok (m.records.map (fun r => r.getD i none))
  | none => Except.error RunError.missingIdentifierColumn

/-- The four membership sets a classification run produces. -/
structure RunOutput where
  allU : Finset String
  financialsU : Finset String
  reitsU : Finset String
  adrsU : Finset String
deriving DecidableEq

/-- Identifiers of the rows whose cell in a descriptive column satisfies a
mask: row selection by boolean mask followed by universe creation. -/
def selectedIds (sidCol col : List (Option String))
    (mask : Option String → Bool) : Finset String :=
  (((sidCol.zip col).filter (fun p => mask p.2)).filterMap Prod.fst).toFinset

/-- One classification run over the raw master file, in notebook order:
publish `nyse-stk` from the unfiltered file (which requires the identifier
column), then read the three descriptive columns and publish the three
filtered universes. -/
def classifyRun (m : MasterFile) : Except RunError RunOutput := do
  let sidCol ← requireIdentifierColumn m
  let sectorCol ← getColumn m "sharadar_Sector"
  let industryCol ← getColumn m "sharadar_Industry"
  let categoryCol ← getColumn m "sharadar_Category"
  Except.ok
    { allU := (sidCol.filterMap id).toFinset,
      financialsU := selectedIds sidCol sectorCol financialsCell,
      reitsU := selectedIds sidCol industryCol reitsCell,
      adrsU := selectedIds sidCol categoryCol adrsCell }

theorem colIdx_eq_none_iff (name : String) (l : List String) :
    colIdx name l = none ↔ name ∉ l := by
  induction l with
  | nil => simp [colIdx]
  | cons h rest ih =>
    by_cases hh : h = name
    · simp [colIdx, hh]
    · simp [colIdx, hh, Option.map_eq_none', ih, Ne.symm hh]

theorem colIdx_isSome_of_mem {name : String} {l : List String}
    (h : name ∈ l) : ∃ i, colIdx name l = some i := by
  cases hc : colIdx name l with
  | none => exact absurd ((colIdx_eq_none_iff name l).mp hc) (not_not.mpr h)
  | some i => exact ⟨i, rfl⟩

/-- C8: when the three descriptive columns are present (the spec's input
contract), a classification run is rejected exactly when the mandatory
identifier column is entirely absent, and then it fails with the
configuration-kind error produced before any filtering executes. -/
theorem identifierColumnFailFast (m : MasterFile)
    (hs : "sharadar_Sector" ∈ m.header)
    (hi : "sharadar_Industry" ∈ m.header)
    (hc : "sharadar_Category" ∈ m.header) :
    ("Sid" ∉ m.header →
      classifyRun m = Except.error RunError.missingIdentifierColumn) ∧
    ("Sid" ∈ m.header → ∃ out, classifyRun m = Except.ok out) := by
  constructor
  · intro hno
    have h0 : colIdx "Sid" m.header = none := (colIdx_eq_none_iff _ _).mpr hno
    simp only [classifyRun, requireIdentifierColumn, h0]
    rfl
  · intro hyes
    obtain ⟨i0, h0⟩ := colIdx_isSome_of_mem hyes
    obtain ⟨i1, h1⟩ := colIdx_isSome_of_mem hs
    obtain ⟨i2, h2⟩ := colIdx_isSome_of_mem hi
    obtain ⟨i3, h3⟩ := colIdx_isSome_of_mem hc
    refine ⟨⟨((m.records.map (fun r => r.getD i0 none)).filterMap id).toFinset,
      selectedIds (m.records.map (fun r => r.getD i0 none))
        (m.records.map (fun r => r.getD i1 none)) financialsCell,
      selectedIds (m.records.map (fun r => r.getD i0 none))
        (m.records.map (fun r => r.getD i2 none)) reitsCell,
      selectedIds (m.records.map (fun r => r.getD i0 none))
        (m.records.map (fun r => r.getD i3 none)) adrsCell⟩, ?_⟩
    simp only [classifyRun, requireIdentifierColumn, getColumn, h0, h1, h2, h3]
    rfl

/-- Witness for C8: a file with the descriptive columns but no identifier
column is rejected with the configuration error. -/
theorem identifierColumnFailFast_witness :
    classifyRun
      ⟨["sharadar_Sector", "sharadar_Industry", "sharadar_Category"],
       [[some "Energy", some "REIT", some "ADR"]]⟩ =
      Except.error RunError.missingIdentifierColumn :=
  (identifierColumnFailFast
    ⟨["sharadar_Sector", "sharadar_Industry", "sharadar_Category"],
     [[some "Energy", some "REIT", some "ADR"]]⟩
    (by decide) (by decide) (by decide)).1 (by decide)

/- ### Claim C9: what `to_csv` writes for each filtered universe -/

/-- `pd.read_csv` gives the table a default integer index 0, 1, 2, ...;
boolean-mask row selection keeps each surviving row's original index. -/
def withIndexFrom (i : Nat) : List Security → List (Nat × Security)
  | [] => []
  | a :: t => (i, a) :: withIndexFrom (i + 1) t

/-- The indexed dataframe as loaded by
`nyse_securities = pd.read_csv("sharadar_nyse_securities.csv")`. -/
def readCsvRows (t : List Security) : List (Nat × Security) := withIndexFrom 0 t

/-- The modelled columns of the master file, in file order. -/
def secHeader : List String :=
  ["Sid", "sharadar_Sector", "sharadar_Industry", "sharadar_Category"]

/-- The cells of one row, in `secHeader` order. -/
def secCells (s : Security) : List (Option String) :=
  [s.sid, s.sector, s.industry, s.category]

/-- The downloaded input file `sharadar_nyse_securities.csv` as a table. -/
def inputFile (t : List Security) : MasterFile :=
  { header := secHeader, records := t.map secCells }

/-- `DataFrame.to_csv(...)` with default arguments (the notebook never
passes `index=False`) writes the index: the header gains a leading column
with an empty name and every record gains a leading cell holding the row's
integer index. -/
def toCsvIndexed (rows : List (Nat × Security)) : MasterFile :=
  { header := "" :: secHeader,
    records := rows.map (fun p => some (Nat.repr p.1) :: secCells p.2) }

/-- `nyse_securities[...financials mask...].to_csv("sharadar_nyse_financials.csv")`. -/
def financialsCsv (t : List Security) : MasterFile :=
  toCsvIndexed ((readCsvRows t).filter (fun p => financialsMask p.2))

/-- `nyse_securities[...REITs mask...].to_csv("sharadar_nyse_reits.csv")`. -/
def reitsCsv (t : List Security) : MasterFile :=
  toCsvIndexed ((readCsvRows t).filter (fun p => reitsMask p.2))

/-- `nyse_securities[...ADRs mask...].to_csv("sharadar_nyse_adrs.csv")`. -/
def adrsCsv (t : List Security) : MasterFile :=
  toCsvIndexed ((readCsvRows t).filter (fun p => adrsMask p.2))

theorem withIndexFrom_map_snd (i : Nat) (t : List Security) :
    (withIndexFrom i t).map Prod.snd = t := by
  induction t generalizing i with
  | nil => rfl
  | cons a t ih => simp [withIndexFrom, ih]

theorem toCsv_filter_records_sublist (mask : Security → Bool)
    (t : List Security) :
    ((toCsvIndexed ((readCsvRows t).filter (fun p => mask p.2))).records.map
      (fun r => r.drop 1)).Sublist (inputFile t).records := by
  have h1 : (((readCsvRows t).filter (fun p => mask p.2)).map
      (fun p => secCells p.2)).Sublist ((readCsvRows t).map
        (fun p => secCells p.2)) :=
    (List.filter_sublist _).map _
  have h2 : (readCsvRows t).map (fun p : Nat × Security => secCells p.2) =
      t.map secCells := by
    rw [readCsvRows, show (fun p : Nat × Security => secCells p.2) =
        secCells ∘ Prod.snd from rfl, ← List.map_map, withIndexFrom_map_snd]
  simpa [toCsvIndexed, inputFile, List.map_map, Function.comp, h2] using h1

/-- C9 counterexample: on a one-row table whose row is a financial, the
financials output file's header differs from the input file's header, so the
output schema is not identical to the input's. -/
theorem outputSchemaChanged_counterexample :
    (financialsCsv [⟨some "A", some "Financial Services", none, none⟩]).header ≠
      (inputFile [⟨some "A", some "Financial Services", none, none⟩]).header := by
  decide

/-- C9 amended: each output file keeps the input's columns unchanged and in
order and its records are, after dropping the index cell, a row-subset of
the input's records in input order; the one schema change is the single
leading index column (empty header name, row index value) that `to_csv`
prepends because the notebook never passes `index=False`. -/
theorem outputFilesRowSubsetPlusIndexColumn (t : List Security) :
    (financialsCsv t).header = "" :: (inputFile t).header ∧
    ((financialsCsv t).records.map (fun r => r.drop 1)).Sublist
      (inputFile t).records ∧
    (reitsCsv t).header = "" :: (inputFile t).header ∧
    ((reitsCsv t).records.map (fun r => r.drop 1)).Sublist
      (inputFile t).records ∧
    (adrsCsv t).header = "" :: (inputFile t).header ∧
    ((adrsCsv t).records.map (fun r => r.drop 1)).Sublist
      (inputFile t).records :=
  ⟨rfl, toCsv_filter_records_sublist financialsMask t,
   rfl, toCsv_filter_records_sublist reitsMask t,
   rfl, toCsv_filter_records_sublist adrsMask t⟩
